import Mathlib

/-!
Shallow embedding of the market-arbitrage engine (src/src/main.py,
src/src/capital_allocator.py, src/src/polymarket.py, src/src/opinion.py).

Python floats are modelled as rationals (ℚ); the Python literals used by the
engine (0.25, 5.0, 1.0, 100) are exact in ℚ.  Presentation-only fields
(formatted action strings, platform-name strings, timestamps) are omitted;
every field that feeds a computation is kept.  Python dicts keyed by strings
are modelled as association lists, and dict fields that may be absent as
`Option`.
-/

namespace Arb

/-- Strategy type tags. The Python code stores the strings
"Yes on App1, No on App2" / "No on App1, Yes on App2" and later dispatches on
a substring test; the only producers write exactly these two strings, so an
enumeration is the faithful model. -/
inductive StrategyType where
  | yesA_noB
  | noA_yesB
deriving DecidableEq

/-- Best-strategy record built by `calculate_arbitrage` (main.py:108-126),
minus the two formatted action strings. -/
structure Strategy where
  stype : StrategyType
  cost : ℚ
  profit : ℚ
  roi_percent : ℚ
deriving DecidableEq

/-- Price record for the second market, as consumed by `calculate_arbitrage`
(main.py:88-89): the `yes_price` / `no_price` entries of the dict. -/
structure Market2Prices where
  yes_price : ℚ
  no_price : ℚ
deriving DecidableEq

/-- Result dict of `calculate_arbitrage` (main.py:128-135). -/
structure ArbitrageResult where
  arbitrage_exists : Bool
  market1_yes : ℚ
  market1_no : ℚ
  market2_yes : ℚ
  market2_no : ℚ
  best_strategy : Option Strategy
deriving DecidableEq

/-- Embedding of `calculate_arbitrage` (main.py:70-135).  Returns `none` when
`len(market1_prices) < 2` (Python returns `None`). -/
def calculate_arbitrage : List ℚ → Market2Prices → Option ArbitrageResult
  | yes_price_m1 :: no_price_m1 :: _, market2_prices =>
    let yes_price_m2 := market2_prices.yes_price
    let no_price_m2 := market2_prices.no_price
    let cost_strategy1 := yes_price_m1 + no_price_m2
    let profit_strategy1 := 1 - cost_strategy1
    let roi_strategy1 := if cost_strategy1 > 0 then profit_strategy1 / cost_strategy1 * 100 else 0
    let cost_strategy2 := no_price_m1 + yes_price_m2
    let profit_strategy2 := 1 - cost_strategy2
    let roi_strategy2 := if cost_strategy2 > 0 then profit_strategy2 / cost_strategy2 * 100 else 0
    let arbitrage_exists := decide (profit_strategy1 > 0 ∨ profit_strategy2 > 0)
    let best_strategy : Option Strategy :=
      if profit_strategy1 > profit_strategy2 ∧ profit_strategy1 > 0 then
        some { stype := .yesA_noB, cost := cost_strategy1, profit := profit_strategy1,
               roi_percent := roi_strategy1 }
      else if profit_strategy2 > 0 then
        some { stype := .noA_yesB, cost := cost_strategy2, profit := profit_strategy2,
               roi_percent := roi_strategy2 }
      else none
    some { arbitrage_exists := arbitrage_exists,
           market1_yes := yes_price_m1, market1_no := no_price_m1,
           market2_yes := yes_price_m2, market2_no := no_price_m2,
           best_strategy := best_strategy }
  | _, _ => none

/-- Extracted Polymarket market record, with the fields read by
`analyze_markets` and `get_price_from_lookup` (polymarket.py:32-43,
main.py:23-67, main.py:324-349). -/
structure PolyMarket where
  closed : Bool
  outcomePrices : List ℚ
  conditionId : Option String
  category_slug : String
  title : String
deriving DecidableEq

/-- Entry of a price lookup dict (built by the predict.fun / Opinion fetch
layers); `yes_price` / `no_price` may be absent (`None`). -/
structure LookupEntry where
  yes_price : Option ℚ
  no_price : Option ℚ
deriving DecidableEq

/-- Model of Python `key.split('||', 1)` followed by the two-variable
destructuring in `get_price_from_lookup` (main.py:38).  A key that contains no
"||" makes the Python destructuring raise ValueError; both lookup producers
only ever build keys of the form `slug||title`, and the model treats a
separator-free key as matching nothing. -/
def split_key_once (key : String) : Option (String × String) :=
  match key.splitOn "||" with
  | [] => none
  | [_] => none
  | s :: rest => some (s, String.intercalate "||" rest)

/-- Lookup-resolution part of `get_price_from_lookup` (main.py:26-53): by
`category_slug||title` key (exact dict hit, then the linear fuzzy scan) when
`match_by_slug`, else by condition ID (Python's falsy test on the ID also
rejects an empty string). -/
def lookup_entry (market : PolyMarket) (price_lookup : List (String × LookupEntry))
    (match_by_slug : Bool) : Option LookupEntry :=
  if match_by_slug then
    let market_key := market.category_slug ++ "||" ++ market.title
    match price_lookup.lookup market_key with
    | some l => some l
    | none =>
      (price_lookup.find? fun kv =>
        match split_key_once kv.1 with
        | some st => st.1 == market.category_slug && st.2 == market.title
        | none => false).map Prod.snd
  else
    match market.conditionId with
    | none => none
    | some condition_id =>
      if condition_id = "" then none else price_lookup.lookup condition_id

/-- Embedding of `get_price_from_lookup` (main.py:23-67), keeping the two
price fields of the returned dict (`market_id`, `source`, `timestamp` are
presentation-only). -/
def get_price_from_lookup (market : PolyMarket) (price_lookup : List (String × LookupEntry))
    (match_by_slug : Bool) : Option Market2Prices :=
  match lookup_entry market price_lookup match_by_slug with
  | none => none
  | some lookup =>
    match lookup.yes_price, lookup.no_price with
    | some yes_price, some no_price =>
      some { yes_price := yes_price, no_price := no_price }
    | _, _ => none

/-- Opportunity dict appended by `analyze_markets` (main.py:343-347); also the
record the capital allocator consumes through its `'arbitrage'` key. -/
structure Opportunity where
  market : PolyMarket
  market2_data : Market2Prices
  arbitrage : ArbitrageResult
deriving DecidableEq

/-- Embedding of `analyze_markets` (main.py:324-349).  A closed market or an
empty (falsy) `outcomePrices` list is skipped; then the lookup must resolve,
the arbitrage computation must return a result, and the result must flag an
arbitrage. -/
def analyze_markets (markets : List PolyMarket) (price_lookup : List (String × LookupEntry))
    (match_by_slug : Bool) : List Opportunity :=
  markets.filterMap fun market =>
    if market.closed || market.outcomePrices.isEmpty then none
    else
      match get_price_from_lookup market price_lookup match_by_slug with
      | none => none
      | some market2_data =>
        match calculate_arbitrage market.outcomePrices market2_data with
        | none => none
        | some arbitrage_result =>
          if arbitrage_result.arbitrage_exists then
            some { market := market, market2_data := market2_data,
                   arbitrage := arbitrage_result }
          else none

/-- Allocation policy enum (capital_allocator.py:5-8). -/
inductive AllocationStrategy where
  | equal
  | roi_weighted
  | kelly
deriving DecidableEq

/-- PLATFORM_MIN_BET constant (capital_allocator.py:11). -/
def PLATFORM_MIN_BET : ℚ := 5

/-- Pre-validation allocation dict (`'opportunity'` / `'allocated_capital'`)
built by the three policy functions. -/
structure PreAllocation where
  opportunity : Opportunity
  allocated_capital : ℚ
deriving DecidableEq

/-- Embedding of `equal_weight_allocation` (capital_allocator.py:14-28). -/
def equal_weight_allocation (opportunities : List Opportunity) (total_capital : ℚ) :
    List PreAllocation :=
  match opportunities with
  | [] => []
  | _ =>
    let allocation_per_opportunity := total_capital / (opportunities.length : ℚ)
    opportunities.filterMap fun opp =>
      if allocation_per_opportunity ≥ PLATFORM_MIN_BET * 2 then
        some { opportunity := opp, allocated_capital := allocation_per_opportunity }
      else none

/-- ROI value one opportunity contributes in `roi_weighted_allocation`
(capital_allocator.py:36-41): the best strategy's `roi_percent`, or 0 when
there is no best strategy. -/
def roiValue (opp : Opportunity) : ℚ :=
  match opp.arbitrage.best_strategy with
  | some best => best.roi_percent
  | none => 0

/-- Embedding of `roi_weighted_allocation` (capital_allocator.py:31-56). -/
def roi_weighted_allocation (opportunities : List Opportunity) (total_capital : ℚ) :
    List PreAllocation :=
  match opportunities with
  | [] => []
  | _ =>
    let roi_values := opportunities.map roiValue
    let total_roi := roi_values.sum
    if total_roi = 0 then equal_weight_allocation opportunities total_capital
    else
      (opportunities.zip roi_values).filterMap fun or =>
        let allocated := or.2 / total_roi * total_capital
        if allocated ≥ PLATFORM_MIN_BET * 2 then
          some { opportunity := or.1, allocated_capital := allocated }
        else none

/-- Raw (unclamped) Kelly fraction computed inline in `kelly_allocation`
(capital_allocator.py:67-69) for a best strategy with the given cost:
`win_prob = 1.0`, `odds = 1/cost - 1`,
`(win_prob*odds - (1 - win_prob)) / odds`. -/
def kelly_fraction_raw (cost : ℚ) : ℚ :=
  let win_prob : ℚ := 1
  let odds := 1 / cost - 1
  (win_prob * odds - (1 - win_prob)) / odds

/-- Kelly fraction one opportunity contributes in `kelly_allocation`
(capital_allocator.py:64-73): the raw fraction clamped to [0, 0.25] when a
best strategy with positive cost exists, else 0. -/
def kellyFraction (opp : Opportunity) : ℚ :=
  match opp.arbitrage.best_strategy with
  | some best =>
    if best.cost > 0 then max 0 (min (kelly_fraction_raw best.cost) (1/4))
    else 0
  | none => 0

/-- Embedding of `kelly_allocation` (capital_allocator.py:59-88). -/
def kelly_allocation (opportunities : List Opportunity) (total_capital : ℚ) :
    List PreAllocation :=
  match opportunities with
  | [] => []
  | _ =>
    let kelly_fractions := opportunities.map kellyFraction
    let total_fraction := kelly_fractions.sum
    if total_fraction = 0 then equal_weight_allocation opportunities total_capital
    else
      (opportunities.zip kelly_fractions).filterMap fun of =>
        let allocated := of.2 / total_fraction * total_capital
        if allocated ≥ PLATFORM_MIN_BET * 2 then
          some { opportunity := of.1, allocated_capital := allocated }
        else none

/-- Bet-detail dict of `calculate_bet_amounts` (capital_allocator.py:127-139),
minus the platform/outcome name strings. -/
structure BetDetails where
  allocated_capital : ℚ
  bet_yes : ℚ
  bet_no : ℚ
  price_yes : ℚ
  price_no : ℚ
  expected_profit : ℚ
  roi_percent : ℚ
deriving DecidableEq

/-- Embedding of `calculate_bet_amounts` (capital_allocator.py:91-139). -/
def calculate_bet_amounts (opp : Opportunity) (allocated_capital : ℚ) : Option BetDetails :=
  let arb := opp.arbitrage
  match arb.best_strategy with
  | none => none
  | some best =>
    let price_yes := match best.stype with
      | .yesA_noB => arb.market1_yes
      | .noA_yesB => arb.market2_yes
    let price_no := match best.stype with
      | .yesA_noB => arb.market2_no
      | .noA_yesB => arb.market1_no
    let total_price := price_yes + price_no
    if total_price = 0 then none
    else
      let bet_yes := allocated_capital * (price_no / total_price)
      let bet_no := allocated_capital * (price_yes / total_price)
      if bet_yes < PLATFORM_MIN_BET ∨ bet_no < PLATFORM_MIN_BET then none
      else
        let expected_profit := allocated_capital - (bet_yes * price_yes + bet_no * price_no)
        some { allocated_capital := allocated_capital, bet_yes := bet_yes, bet_no := bet_no,
               price_yes := price_yes, price_no := price_no,
               expected_profit := expected_profit,
               roi_percent := if allocated_capital > 0 then expected_profit / allocated_capital * 100 else 0 }

/-- Validated allocation record (pre-allocation plus its `bet_details`),
as kept by `allocate_capital` (capital_allocator.py:160-170). -/
structure Allocation where
  opportunity : Opportunity
  allocated_capital : ℚ
  bet_details : BetDetails
deriving DecidableEq

/-- Result dict of `allocate_capital` (capital_allocator.py:172-181). -/
structure AllocationPlan where
  allocations : List Allocation
  total_capital : ℚ
  total_deployed : ℚ
  total_unallocated : ℚ
  total_expected_profit : ℚ
  overall_roi_percent : ℚ
  num_opportunities : ℕ
  strategy : AllocationStrategy
deriving DecidableEq

/-- Embedding of `allocate_capital` (capital_allocator.py:142-181). -/
def allocate_capital (opportunities : List Opportunity) (total_capital : ℚ)
    (strategy : AllocationStrategy) : AllocationPlan :=
  let allocations :=
    match strategy with
    | .equal => equal_weight_allocation opportunities total_capital
    | .roi_weighted => roi_weighted_allocation opportunities total_capital
    | .kelly => kelly_allocation opportunities total_capital
  let validated_allocations := allocations.filterMap fun allocation =>
    match calculate_bet_amounts allocation.opportunity allocation.allocated_capital with
    | some bet_details =>
      some { opportunity := allocation.opportunity,
             allocated_capital := allocation.allocated_capital,
             bet_details := bet_details }
    | none => none
  let total_deployed := (validated_allocations.map fun a => a.bet_details.allocated_capital).sum
  let total_expected_profit := (validated_allocations.map fun a => a.bet_details.expected_profit).sum
  { allocations := validated_allocations,
    total_capital := total_capital,
    total_deployed := total_deployed,
    total_unallocated := total_capital - total_deployed,
    total_expected_profit := total_expected_profit,
    overall_roi_percent := if total_deployed > 0 then total_expected_profit / total_deployed * 100 else 0,
    num_opportunities := validated_allocations.length,
    strategy := strategy }

/-- Opinion order-book level (opinion.py); `extract_opinion_orderbook_depth`
indexes `price` and `size` directly, so they are mandatory fields. -/
structure OpinionLevel where
  price : ℚ
  size : ℚ
deriving DecidableEq

/-- Order-book depth dict shared by both extractors: top-two bid/ask prices
with their USD sizes, each present only when the corresponding level (and,
for sizes, its size) exists. -/
structure OrderbookDepth where
  bid1_price : Option ℚ
  bid1_size_usd : Option ℚ
  bid2_price : Option ℚ
  bid2_size_usd : Option ℚ
  ask1_price : Option ℚ
  ask1_size_usd : Option ℚ
  ask2_price : Option ℚ
  ask2_size_usd : Option ℚ
deriving DecidableEq

/-- Embedding of `extract_opinion_orderbook_depth` (opinion.py:26-60): reads
the first two entries of each already-sorted list; returns `None` when the
ask list is empty (the result dict then always has `ask1_price`, so the final
emptiness test never fires). -/
def extract_opinion_orderbook_depth (sorted_bids sorted_asks : List OpinionLevel) :
    Option OrderbookDepth :=
  if sorted_asks.isEmpty then none
  else
    some { bid1_price := (sorted_bids.get? 0).map fun l => l.price
           bid1_size_usd := (sorted_bids.get? 0).map fun l => l.price * l.size
           bid2_price := (sorted_bids.get? 1).map fun l => l.price
           bid2_size_usd := (sorted_bids.get? 1).map fun l => l.price * l.size
           ask1_price := (sorted_asks.get? 0).map fun l => l.price
           ask1_size_usd := (sorted_asks.get? 0).map fun l => l.price * l.size
           ask2_price := (sorted_asks.get? 1).map fun l => l.price
           ask2_size_usd := (sorted_asks.get? 1).map fun l => l.price * l.size }

/-- Sort-and-extract core of `fetch_token_orderbook` (opinion.py:79-84), after
the HTTP payload has been parsed into bid/ask level lists: bids are sorted by
price descending, asks ascending (Python's `sorted` is a stable sort, modelled
by the stable `List.insertionSort`), then the top levels are extracted. -/
def fetch_token_orderbook_depth (bids asks : List OpinionLevel) : Option OrderbookDepth :=
  let sorted_bids := List.insertionSort (fun a b => b.price ≤ a.price) bids
  let sorted_asks := List.insertionSort (fun a b => a.price ≤ b.price) asks
  extract_opinion_orderbook_depth sorted_bids sorted_asks

/-- Polymarket order-book level: string-typed `price` / `size` dict entries
that may be absent (the Python code tests `level.get('price')` before
converting with `float`). -/
structure BookLevel where
  price : Option ℚ
  size : Option ℚ
deriving DecidableEq

/-- Polymarket order book: two-sided list of levels. -/
structure OrderBook where
  bids : List BookLevel
  asks : List BookLevel
deriving DecidableEq

/-- Embedding of `extract_orderbook_depth` (polymarket.py:100-153).  It does
NOT sort: `bids[-1]` / `bids[-2]` (the last and second-to-last elements of the
list as given) are read as best and second-best bid, and likewise for asks.
`target_price` is accepted and unused, as in the source.  The final Python
`return result if result else None` makes the result `None` exactly when no
price field was populated. -/
def extract_orderbook_depth (orderbook : Option OrderBook) (target_price : ℚ) :
    Option OrderbookDepth :=
  match orderbook with
  | none => none
  | some ob =>
    let rb := ob.bids.reverse
    let ra := ob.asks.reverse
    let level_price := fun (l : Option BookLevel) => l.bind fun lv => lv.price
    let level_size := fun (l : Option BookLevel) => l.bind fun lv => lv.size
    let usd := fun (l : Option BookLevel) =>
      match level_price l, level_size l with
      | some p, some s => some (p * s)
      | _, _ => none
    let result : OrderbookDepth :=
      { bid1_price := level_price (rb.get? 0), bid1_size_usd := usd (rb.get? 0)
        bid2_price := level_price (rb.get? 1), bid2_size_usd := usd (rb.get? 1)
        ask1_price := level_price (ra.get? 0), ask1_size_usd := usd (ra.get? 0)
        ask2_price := level_price (ra.get? 1), ask2_size_usd := usd (ra.get? 1) }
    if result.bid1_price = none ∧ result.bid2_price = none ∧
       result.ask1_price = none ∧ result.ask2_price = none then none
    else some result

/-- Combined per-platform orderbook dict handed to the ROI refiners
(main.py:491-512): the `yes_`/`no_`-prefixed ask levels actually read by
them. -/
structure CombinedOrderbook where
  yes_ask1_price : Option ℚ
  no_ask1_price : Option ℚ
  yes_ask2_price : Option ℚ
  no_ask2_price : Option ℚ
deriving DecidableEq

/-- Platform-1 leg price selection of `calculate_orderbook_roi_combined_ask1`
(main.py:196-213): the platform-1 ask1 price for the strategy's platform-1
outcome when the book and that field are present, else that leg's flat
price. -/
def refined_price_ask1_p1 (strategy_type : StrategyType)
    (platform1_orderbook : Option CombinedOrderbook)
    (platform1_prices : Market2Prices) : ℚ :=
  match strategy_type, platform1_orderbook with
  | .yesA_noB, some ob => ob.yes_ask1_price.getD platform1_prices.yes_price
  | .yesA_noB, none => platform1_prices.yes_price
  | .noA_yesB, some ob => ob.no_ask1_price.getD platform1_prices.no_price
  | .noA_yesB, none => platform1_prices.no_price

/-- Platform-2 leg price selection of `calculate_orderbook_roi_combined_ask1`
(main.py:203-219): symmetric, with the outcomes swapped. -/
def refined_price_ask1_p2 (strategy_type : StrategyType)
    (platform2_orderbook : Option CombinedOrderbook)
    (platform2_prices : Market2Prices) : ℚ :=
  match strategy_type, platform2_orderbook with
  | .yesA_noB, some ob => ob.no_ask1_price.getD platform2_prices.no_price
  | .yesA_noB, none => platform2_prices.no_price
  | .noA_yesB, some ob => ob.yes_ask1_price.getD platform2_prices.yes_price
  | .noA_yesB, none => platform2_prices.yes_price

/-- Embedding of `calculate_orderbook_roi_combined_ask1` (main.py:190-227).
Each leg independently uses its platform's ask1 price when the book and that
field are present, else falls back to that leg's flat price. -/
def calculate_orderbook_roi_combined_ask1 (strategy_type : StrategyType)
    (platform1_orderbook platform2_orderbook : Option CombinedOrderbook)
    (platform1_prices platform2_prices : Market2Prices) : Option ℚ :=
  let price_p1 := refined_price_ask1_p1 strategy_type platform1_orderbook platform1_prices
  let price_p2 := refined_price_ask1_p2 strategy_type platform2_orderbook platform2_prices
  let cost := price_p1 + price_p2
  if cost ≤ 0 then none
  else some ((1 - cost) / cost * 100)

/-- Platform-1 leg price selection of `calculate_orderbook_roi_combined_ask2`
(main.py:236-253): as for ask1, with the ask2 fields. -/
def refined_price_ask2_p1 (strategy_type : StrategyType)
    (platform1_orderbook : Option CombinedOrderbook)
    (platform1_prices : Market2Prices) : ℚ :=
  match strategy_type, platform1_orderbook with
  | .yesA_noB, some ob => ob.yes_ask2_price.getD platform1_prices.yes_price
  | .yesA_noB, none => platform1_prices.yes_price
  | .noA_yesB, some ob => ob.no_ask2_price.getD platform1_prices.no_price
  | .noA_yesB, none => platform1_prices.no_price

/-- Platform-2 leg price selection of `calculate_orderbook_roi_combined_ask2`
(main.py:243-259). -/
def refined_price_ask2_p2 (strategy_type : StrategyType)
    (platform2_orderbook : Option CombinedOrderbook)
    (platform2_prices : Market2Prices) : ℚ :=
  match strategy_type, platform2_orderbook with
  | .yesA_noB, some ob => ob.no_ask2_price.getD platform2_prices.no_price
  | .yesA_noB, none => platform2_prices.no_price
  | .noA_yesB, some ob => ob.yes_ask2_price.getD platform2_prices.yes_price
  | .noA_yesB, none => platform2_prices.yes_price

/-- Embedding of `calculate_orderbook_roi_combined_ask2` (main.py:230-267):
identical shape to the ask1 variant with the ask2 fields. -/
def calculate_orderbook_roi_combined_ask2 (strategy_type : StrategyType)
    (platform1_orderbook platform2_orderbook : Option CombinedOrderbook)
    (platform1_prices platform2_prices : Market2Prices) : Option ℚ :=
  let price_p1 := refined_price_ask2_p1 strategy_type platform1_orderbook platform1_prices
  let price_p2 := refined_price_ask2_p2 strategy_type platform2_orderbook platform2_prices
  let cost := price_p1 + price_p2
  if cost ≤ 0 then none
  else some ((1 - cost) / cost * 100)

/-- Shared characterization of the best strategy returned by
`calculate_arbitrage`: it is profitable, its profit is `1 - cost`, its ROI is
the guarded `profit/cost × 100`, and its cost is the leg sum matching its
type. -/
theorem best_strategy_spec (m1_yes m1_no : ℚ) (rest : List ℚ) (m2 : Market2Prices)
    (r : ArbitrageResult) (b : Strategy)
    (hr : calculate_arbitrage (m1_yes :: m1_no :: rest) m2 = some r)
    (hb : r.best_strategy = some b) :
    0 < b.profit ∧ b.profit = 1 - b.cost ∧
    b.roi_percent = (if 0 < b.cost then b.profit / b.cost * 100 else 0) ∧
    ((b.stype = StrategyType.yesA_noB ∧ b.cost = m1_yes + m2.no_price) ∨
     (b.stype = StrategyType.noA_yesB ∧ b.cost = m1_no + m2.yes_price)) := by
  simp only [calculate_arbitrage, Option.some.injEq] at hr
  subst hr
  simp only at hb
  split at hb
  · rename_i hcond
    cases hb
    refine ⟨hcond.2, by ring, by simp [gt_iff_lt], Or.inl ⟨rfl, rfl⟩⟩
  · split at hb
    · rename_i hcond2
      cases hb
      refine ⟨hcond2, by ring, by simp [gt_iff_lt], Or.inr ⟨rfl, rfl⟩⟩
    · exact absurd hb (by simp)

/-- C1: if `leg_a.yes_price + leg_b.no_price ≥ 1` and
`leg_a.no_price + leg_b.yes_price ≥ 1`, then `calculate_arbitrage` returns a
result whose `best_strategy` is `None` and whose `arbitrage_exists` flag is
false. -/
theorem calculate_arbitrage_no_false_positive (m1_yes m1_no : ℚ) (rest : List ℚ)
    (m2 : Market2Prices) (r : ArbitrageResult)
    (h1 : 1 ≤ m1_yes + m2.no_price) (h2 : 1 ≤ m1_no + m2.yes_price)
    (hr : calculate_arbitrage (m1_yes :: m1_no :: rest) m2 = some r) :
    r.best_strategy = none ∧ r.arbitrage_exists = false := by
  simp only [calculate_arbitrage, Option.some.injEq] at hr
  subst hr
  constructor
  · simp only
    rw [if_neg, if_neg]
    · intro h
      linarith
    · intro h
      linarith [h.2]
  · simp only [decide_eq_false_iff_not, not_or, not_lt]
    constructor <;> linarith

unseal Rat.add Rat.mul Rat.sub Rat.inv in
/-- Witness for C1 at `leg_a = (0.6, 0.6)`, `leg_b = (0.4, 0.4)`. -/
theorem calculate_arbitrage_no_false_positive_witness :
    ({ arbitrage_exists := false, market1_yes := 3/5, market1_no := 3/5,
       market2_yes := 2/5, market2_no := 2/5,
       best_strategy := none } : ArbitrageResult).best_strategy = none ∧
    ({ arbitrage_exists := false, market1_yes := 3/5, market1_no := 3/5,
       market2_yes := 2/5, market2_no := 2/5,
       best_strategy := none } : ArbitrageResult).arbitrage_exists = false :=
  calculate_arbitrage_no_false_positive (3/5) (3/5) [] { yes_price := 2/5, no_price := 2/5 }
    _ (by norm_num) (by norm_num) (by decide)

unseal Rat.add Rat.mul Rat.sub Rat.inv in
/-- C2 counterexample: with `leg_a = (0.3, 0.4)` and `leg_b = (0.4, 0.5)` both
strategies are profitable with exactly equal profits (both 0.2), yet
`calculate_arbitrage` selects the second-computed strategy
(`No on App1, Yes on App2`), not `strategy_yes_a_no_b` as the claim states. -/
theorem calculate_arbitrage_tie_break_counterexample :
    calculate_arbitrage [3/10, 2/5] { yes_price := 2/5, no_price := 1/2 } =
      some { arbitrage_exists := true, market1_yes := 3/10, market1_no := 2/5,
             market2_yes := 2/5, market2_no := 1/2,
             best_strategy := some { stype := .noA_yesB, cost := 4/5, profit := 1/5,
                                     roi_percent := 25 } } ∧
    (0 : ℚ) < 1 - (3/10 + 1/2) ∧ ((1 : ℚ) - (3/10 + 1/2) = 1 - (2/5 + 2/5)) := by
  refine ⟨by decide, by decide, by decide⟩

/-- C2 amended: when both strategies are profitable and their profits are
exactly equal, `calculate_arbitrage` selects the second-computed strategy
`strategy_no_a_yes_b` (type `No on App1, Yes on App2`) as `best_strategy`
(the strict-greater test on the first strategy fails on a tie). -/
theorem calculate_arbitrage_tie_break (m1_yes m1_no : ℚ) (rest : List ℚ)
    (m2 : Market2Prices) (r : ArbitrageResult)
    (hp : 0 < 1 - (m1_yes + m2.no_price))
    (heq : 1 - (m1_yes + m2.no_price) = 1 - (m1_no + m2.yes_price))
    (hr : calculate_arbitrage (m1_yes :: m1_no :: rest) m2 = some r) :
    ∃ b, r.best_strategy = some b ∧ b.stype = StrategyType.noA_yesB := by
  simp only [calculate_arbitrage, Option.some.injEq] at hr
  subst hr
  simp only
  rw [if_neg, if_pos]
  · exact ⟨_, rfl, rfl⟩
  · linarith
  · rintro ⟨hgt, -⟩
    rw [heq] at hgt
    exact lt_irrefl _ hgt

unseal Rat.add Rat.mul Rat.sub Rat.inv in
/-- Witness for the amended C2 at the tied input above. -/
theorem calculate_arbitrage_tie_break_witness :
    ∃ b, ({ arbitrage_exists := true, market1_yes := 3/10, market1_no := 2/5,
            market2_yes := 2/5, market2_no := 1/2,
            best_strategy := some { stype := .noA_yesB, cost := 4/5, profit := 1/5,
                                    roi_percent := 25 } } : ArbitrageResult).best_strategy
          = some b ∧ b.stype = StrategyType.noA_yesB :=
  calculate_arbitrage_tie_break (3/10) (2/5) [] { yes_price := 2/5, no_price := 1/2 } _
    (by norm_num) (by norm_num) (by decide)

/-- Shared inversion lemma for `calculate_bet_amounts`: when it returns a
record, the record's bets are the cross-multiplied split of the allocated
capital, the leg-price sum is nonzero, and both bets passed the minimum-bet
guard. -/
theorem calculate_bet_amounts_spec (opp : Opportunity) (c : ℚ) (bd : BetDetails)
    (h : calculate_bet_amounts opp c = some bd) :
    bd.allocated_capital = c ∧
    bd.price_yes + bd.price_no ≠ 0 ∧
    bd.bet_yes = c * (bd.price_no / (bd.price_yes + bd.price_no)) ∧
    bd.bet_no = c * (bd.price_yes / (bd.price_yes + bd.price_no)) ∧
    PLATFORM_MIN_BET ≤ bd.bet_yes ∧ PLATFORM_MIN_BET ≤ bd.bet_no := by
  simp only [calculate_bet_amounts] at h
  split at h
  · exact absurd h (by simp)
  · split at h
    · exact absurd h (by simp)
    · rename_i hT
      split at h
      · exact absurd h (by simp)
      · rename_i hmin
        rw [not_or, not_lt, not_lt] at hmin
        cases h
        exact ⟨rfl, hT, rfl, rfl, hmin.1, hmin.2⟩

/-- Support for the C3 counterexample: an opportunity whose best strategy has
leg prices 0.2 (YES on platform 1) and 0.6 (NO on platform 2); the arbitrage
record is the one `calculate_arbitrage [0.2, 0.9] (0.9, 0.6)` produces. -/
def bet_split_opp_uneq : Opportunity :=
  { market := { closed := false, outcomePrices := [1/5, 9/10], conditionId := some "u",
                category_slug := "s", title := "u" },
    market2_data := { yes_price := 9/10, no_price := 3/5 },
    arbitrage := { arbitrage_exists := true, market1_yes := 1/5, market1_no := 9/10,
                   market2_yes := 9/10, market2_no := 3/5,
                   best_strategy := some { stype := .yesA_noB, cost := 4/5, profit := 1/5,
                                           roi_percent := 25 } } }

unseal Rat.add Rat.mul Rat.sub Rat.inv in
/-- C3 counterexample: with leg prices 0.2 and 0.6 and allocated capital 100,
`calculate_bet_amounts` returns `bet_yes = 75`, `bet_no = 25`, and the payouts
differ across outcomes: `bet_yes / price_yes = 375` while
`bet_no / price_no ≈ 41.7`.  The claimed identity
`bet_yes / price_yes = bet_no / price_no` fails. -/
theorem bet_split_payout_counterexample :
    calculate_bet_amounts bet_split_opp_uneq 100 =
      some { allocated_capital := 100, bet_yes := 75, bet_no := 25, price_yes := 1/5,
             price_no := 3/5, expected_profit := 70, roi_percent := 70 } ∧
    (75 : ℚ) / (1/5) ≠ (25 : ℚ) / (3/5) := by
  refine ⟨by decide, by decide⟩

/-- C3 amended: the cross-multiplied split equalizes the dollar cost per leg,
`bet_yes × price_yes = bet_no × price_no`, not the payout; the payouts
`bet_yes / price_yes` and `bet_no / price_no` coincide exactly when the two
leg prices are equal. -/
theorem calculate_bet_amounts_equalizes_cost_not_payout (opp : Opportunity) (c : ℚ)
    (bd : BetDetails) (h : calculate_bet_amounts opp c = some bd)
    (hy : 0 < bd.price_yes) (hn : 0 < bd.price_no) (hc : 0 < c) :
    bd.bet_yes * bd.price_yes = bd.bet_no * bd.price_no ∧
    (bd.bet_yes / bd.price_yes = bd.bet_no / bd.price_no ↔ bd.price_yes = bd.price_no) := by
  obtain ⟨-, hT, hby, hbn, -, -⟩ := calculate_bet_amounts_spec opp c bd h
  refine ⟨by rw [hby, hbn]; ring, ?_, ?_⟩
  · intro hEq
    rw [hby, hbn] at hEq
    have hT0 : (0:ℚ) < bd.price_yes + bd.price_no := by linarith
    field_simp at hEq
    have hcT : (0:ℚ) < c * (bd.price_yes + bd.price_no) := mul_pos hc hT0
    have h2 : (c * (bd.price_yes + bd.price_no)) * (bd.price_no * bd.price_no) =
        (c * (bd.price_yes + bd.price_no)) * (bd.price_yes * bd.price_yes) := by
      linear_combination hEq
    rcases mul_self_eq_mul_self_iff.mp (mul_left_cancel₀ (ne_of_gt hcT) h2) with h3 | h3
    · exact h3.symm
    · nlinarith
  · intro hEq
    rw [hby, hbn, hEq]

/-- Support for the C3 witness and the C5 witness: an opportunity whose best
strategy has equal leg prices 0.4/0.4 (the record `calculate_arbitrage
[0.4, 0.6] (0.9, 0.4)` produces). -/
def bet_split_opp_eq : Opportunity :=
  { market := { closed := false, outcomePrices := [2/5, 3/5], conditionId := some "w",
                category_slug := "s", title := "t" },
    market2_data := { yes_price := 9/10, no_price := 2/5 },
    arbitrage := { arbitrage_exists := true, market1_yes := 2/5, market1_no := 3/5,
                   market2_yes := 9/10, market2_no := 2/5,
                   best_strategy := some { stype := .yesA_noB, cost := 4/5, profit := 1/5,
                                           roi_percent := 25 } } }

/-- Bet details produced for `bet_split_opp_eq` with allocated capital 100. -/
def bet_split_details_eq : BetDetails :=
  { allocated_capital := 100, bet_yes := 50, bet_no := 50, price_yes := 2/5,
    price_no := 2/5, expected_profit := 60, roi_percent := 60 }

unseal Rat.add Rat.mul Rat.sub Rat.inv in
/-- Witness for the amended C3 at the equal-price opportunity. -/
theorem calculate_bet_amounts_equalizes_cost_not_payout_witness :
    bet_split_details_eq.bet_yes * bet_split_details_eq.price_yes =
      bet_split_details_eq.bet_no * bet_split_details_eq.price_no ∧
    (bet_split_details_eq.bet_yes / bet_split_details_eq.price_yes =
       bet_split_details_eq.bet_no / bet_split_details_eq.price_no ↔
     bet_split_details_eq.price_yes = bet_split_details_eq.price_no) :=
  calculate_bet_amounts_equalizes_cost_not_payout bet_split_opp_eq 100 bet_split_details_eq
    (by decide) (by decide) (by decide) (by decide)

/-- C5: every allocation in the plan returned by `allocate_capital` has both
leg bets at or above `PLATFORM_MIN_BET`, for every opportunity list, capital,
and policy (sub-minimum splits are filtered out by `calculate_bet_amounts`
returning `None`). -/
theorem allocate_capital_min_bet (opportunities : List Opportunity) (total_capital : ℚ)
    (strategy : AllocationStrategy) (a : Allocation)
    (ha : a ∈ (allocate_capital opportunities total_capital strategy).allocations) :
    PLATFORM_MIN_BET ≤ a.bet_details.bet_yes ∧ PLATFORM_MIN_BET ≤ a.bet_details.bet_no := by
  simp only [allocate_capital, List.mem_filterMap] at ha
  obtain ⟨pre, -, hpre⟩ := ha
  split at hpre
  · rename_i bd hbd
    cases hpre
    obtain ⟨-, -, -, -, h1, h2⟩ := calculate_bet_amounts_spec _ _ _ hbd
    exact ⟨h1, h2⟩
  · exact absurd hpre (by simp)

unseal Rat.add Rat.mul Rat.sub Rat.inv in
/-- Witness for C5: the single-opportunity equal-weight plan on capital 100
contains the allocation with bets 50/50, both above the minimum of 5. -/
theorem allocate_capital_min_bet_witness :
    PLATFORM_MIN_BET ≤ bet_split_details_eq.bet_yes ∧
    PLATFORM_MIN_BET ≤ bet_split_details_eq.bet_no :=
  allocate_capital_min_bet [bet_split_opp_eq] 100 .equal
    { opportunity := bet_split_opp_eq, allocated_capital := 100,
      bet_details := bet_split_details_eq }
    (by decide)

/-- C4 amended: `analyze_markets` excludes closed markets and markets with an
empty (falsy) price list — every produced opportunity's market is open with a
nonempty price list — and `get_price_from_lookup` drops a matched entry whose
`yes_price` or `no_price` is missing (`None`).  Zero prices are NOT excluded
(see the counterexample). -/
theorem analyze_markets_exclusions (markets : List PolyMarket)
    (price_lookup : List (String × LookupEntry)) (match_by_slug : Bool) :
    (∀ o ∈ analyze_markets markets price_lookup match_by_slug,
        o.market.closed = false ∧ o.market.outcomePrices ≠ []) ∧
    (∀ market e, lookup_entry market price_lookup match_by_slug = some e →
        e.yes_price = none ∨ e.no_price = none →
        get_price_from_lookup market price_lookup match_by_slug = none) := by
  constructor
  · intro o ho
    simp only [analyze_markets, List.mem_filterMap] at ho
    obtain ⟨m, hm, hsome⟩ := ho
    split at hsome
    · exact absurd hsome (by simp)
    · rename_i hguard
      simp only [Bool.or_eq_true, List.isEmpty_iff, not_or] at hguard
      split at hsome
      · exact absurd hsome (by simp)
      · split at hsome
        · exact absurd hsome (by simp)
        · split at hsome
          · cases hsome
            exact ⟨Bool.not_eq_true _ ▸ hguard.1, hguard.2⟩
          · exact absurd hsome (by simp)
  · intro market e he hmiss
    simp only [get_price_from_lookup, he]
    rcases hmiss with h | h <;> rw [h] <;> cases e.yes_price <;> rfl

/-- Support for the C4 counterexample: an open market whose YES price is
exactly 0 (and NO price 0.9), listed in the lookup under its condition ID. -/
def zero_price_market : PolyMarket :=
  { closed := false, outcomePrices := [0, 9/10], conditionId := some "c",
    category_slug := "s", title := "z" }

/-- Lookup giving the second platform's prices for `zero_price_market`. -/
def zero_price_lookup : List (String × LookupEntry) :=
  [("c", { yes_price := some (9/10), no_price := some (1/2) })]

/-- Opportunity `analyze_markets` produces for `zero_price_market`. -/
def zero_price_opp : Opportunity :=
  { market := zero_price_market,
    market2_data := { yes_price := 9/10, no_price := 1/2 },
    arbitrage := { arbitrage_exists := true, market1_yes := 0, market1_no := 9/10,
                   market2_yes := 9/10, market2_no := 1/2,
                   best_strategy := some { stype := .yesA_noB, cost := 1/2, profit := 1/2,
                                           roi_percent := 100 } } }

unseal Rat.add Rat.mul Rat.sub Rat.inv in
/-- C4 counterexample: the zero-priced quote is not dropped — `analyze_markets`
produces an opportunity whose arbitrage computation uses the zero YES price
(the best strategy buys it at cost 0 + 0.5). -/
theorem analyze_markets_zero_price_counterexample :
    analyze_markets [zero_price_market] zero_price_lookup false = [zero_price_opp] ∧
    zero_price_opp.arbitrage.market1_yes = 0 ∧
    zero_price_opp.arbitrage.best_strategy.isSome = true := by
  refine ⟨by decide, by decide, by decide⟩

/-- Lookup whose single entry is missing its YES price. -/
def missing_price_lookup : List (String × LookupEntry) :=
  [("c", { yes_price := none, no_price := some 1 })]

unseal Rat.add Rat.mul Rat.sub Rat.inv in
/-- Witness for the amended C4: the opportunity produced for the zero-price
market has an open market and a nonempty price list, and a matched entry with
a missing YES price yields no prices at all. -/
theorem analyze_markets_exclusions_witness :
    (zero_price_opp.market.closed = false ∧ zero_price_opp.market.outcomePrices ≠ []) ∧
    get_price_from_lookup zero_price_market missing_price_lookup false = none :=
  ⟨(analyze_markets_exclusions [zero_price_market] zero_price_lookup false).1
      zero_price_opp (by decide),
   (analyze_markets_exclusions [] missing_price_lookup false).2 zero_price_market
      { yes_price := none, no_price := some 1 } (by decide) (Or.inl rfl)⟩

/-- C7: on a non-empty opportunity list, when every opportunity's ROI value is
zero, `roi_weighted_allocation` returns exactly the result of
`equal_weight_allocation`; and when every opportunity's Kelly fraction is
zero, `kelly_allocation` returns exactly the result of
`equal_weight_allocation`. -/
theorem policy_fallback (opportunities : List Opportunity) (total_capital : ℚ)
    (hne : opportunities ≠ []) :
    ((∀ o ∈ opportunities, roiValue o = 0) →
      roi_weighted_allocation opportunities total_capital =
        equal_weight_allocation opportunities total_capital) ∧
    ((∀ o ∈ opportunities, kellyFraction o = 0) →
      kelly_allocation opportunities total_capital =
        equal_weight_allocation opportunities total_capital) := by
  match opportunities, hne with
  | o :: os, _ =>
    constructor
    · intro hz
      have hsum : ((o :: os).map roiValue).sum = 0 := by
        refine List.sum_eq_zero ?_
        intro x hx
        obtain ⟨y, hy, rfl⟩ := List.mem_map.mp hx
        exact hz y hy
      simp only [roi_weighted_allocation]
      rw [hsum]
      simp
    · intro hz
      have hsum : ((o :: os).map kellyFraction).sum = 0 := by
        refine List.sum_eq_zero ?_
        intro x hx
        obtain ⟨y, hy, rfl⟩ := List.mem_map.mp hx
        exact hz y hy
      simp only [kelly_allocation]
      rw [hsum]
      simp

/-- Support for the C7 witness: an opportunity with no best strategy, so its
ROI value and Kelly fraction are both zero (the arbitrage record is the one
`calculate_arbitrage [0.6, 0.6] (0.4, 0.4)` produces). -/
def no_best_opp : Opportunity :=
  { market := { closed := false, outcomePrices := [3/5, 3/5], conditionId := some "n",
                category_slug := "s", title := "n" },
    market2_data := { yes_price := 2/5, no_price := 2/5 },
    arbitrage := { arbitrage_exists := false, market1_yes := 3/5, market1_no := 3/5,
                   market2_yes := 2/5, market2_no := 2/5, best_strategy := none } }

unseal Rat.add Rat.mul Rat.sub Rat.inv in
/-- Witness for C7 on the singleton list of the zero-ROI opportunity. -/
theorem policy_fallback_witness :
    (roi_weighted_allocation [no_best_opp] 100 = equal_weight_allocation [no_best_opp] 100) ∧
    (kelly_allocation [no_best_opp] 100 = equal_weight_allocation [no_best_opp] 100) := by
  have h := policy_fallback [no_best_opp] 100 (by decide)
  exact ⟨h.1 (by decide), h.2 (by decide)⟩

/-- Shared lemma: the raw Kelly fraction is exactly 1 for any cost strictly
between 0 and 1 (`win_prob = 1` collapses the formula to `odds / odds`). -/
theorem kelly_fraction_raw_eq_one (cost : ℚ) (h0 : 0 < cost) (h1 : cost < 1) :
    kelly_fraction_raw cost = 1 := by
  have hodds : 0 < 1 / cost - 1 := by
    rw [sub_pos, lt_div_iff h0, one_mul]
    exact h1
  simp only [kelly_fraction_raw, one_mul, sub_self, sub_zero]
  exact div_self (ne_of_gt hodds)

/-- C8: for every opportunity whose best strategy has cost strictly between 0
and 1, the raw Kelly fraction equals 1 and the clamped fraction equals 0.25;
consequently, when every opportunity in the list qualifies, `kelly_allocation`
coincides with `equal_weight_allocation`. -/
theorem kelly_reduces_to_constant (opportunities : List Opportunity) (total_capital : ℚ)
    (h : ∀ o ∈ opportunities,
        ∃ b, o.arbitrage.best_strategy = some b ∧ 0 < b.cost ∧ b.cost < 1) :
    (∀ o ∈ opportunities, ∀ b, o.arbitrage.best_strategy = some b →
        kelly_fraction_raw b.cost = 1 ∧ kellyFraction o = 1/4) ∧
    kelly_allocation opportunities total_capital =
      equal_weight_allocation opportunities total_capital := by
  have hfrac : ∀ o ∈ opportunities, kellyFraction o = 1/4 := by
    intro o ho
    obtain ⟨b, hb, hb0, hb1⟩ := h o ho
    simp only [kellyFraction, hb]
    rw [if_pos hb0, kelly_fraction_raw_eq_one b.cost hb0 hb1]
    norm_num
  refine ⟨?_, ?_⟩
  · intro o ho b hb
    obtain ⟨b', hb', h0, h1⟩ := h o ho
    rw [hb] at hb'
    injection hb' with e
    subst e
    exact ⟨kelly_fraction_raw_eq_one _ h0 h1, hfrac o ho⟩
  · match opportunities, hfrac with
    | [], _ => rfl
    | o :: os, hfrac =>
      have hmap : (o :: os).map kellyFraction = List.replicate (o :: os).length (1/4 : ℚ) := by
        rw [List.map_congr_left hfrac, List.map_const']
      have hsum : ((o :: os).map kellyFraction).sum = ((o :: os).length : ℚ) / 4 := by
        rw [hmap, List.sum_replicate, nsmul_eq_mul]
        ring
      have hn : ((o :: os).length : ℚ) ≠ 0 :=
        Nat.cast_ne_zero.mpr (by simp)
      have hne4 : ((o :: os).length : ℚ) / 4 ≠ 0 :=
        div_ne_zero hn (by norm_num)
      have hzip : ∀ (l : List Opportunity), l.zip (l.map kellyFraction)
          = l.map (fun a => (a, kellyFraction a)) := by
        intro l
        induction l with
        | nil => rfl
        | cons a t ih => simpa using ih
      have key : (1/4 : ℚ) / (((o :: os).length : ℚ) / 4) * total_capital
          = total_capital / ((o :: os).length : ℚ) := by
        field_simp
      simp only [kelly_allocation, equal_weight_allocation, hsum, if_neg hne4, hzip (o :: os),
        List.filterMap_map]
      refine List.filterMap_congr ?_
      intro x hx
      simp only [Function.comp_apply, hfrac x hx, key]

unseal Rat.add Rat.mul Rat.sub Rat.inv in
/-- Witness for C8 on the singleton list of the cost-0.8 opportunity with
capital 100. -/
theorem kelly_reduces_to_constant_witness :
    kelly_fraction_raw (4/5 : ℚ) = 1 ∧ kellyFraction bet_split_opp_eq = 1/4 ∧
    kelly_allocation [bet_split_opp_eq] 100 = equal_weight_allocation [bet_split_opp_eq] 100 := by
  have h := kelly_reduces_to_constant [bet_split_opp_eq] 100 (by
    intro o ho
    rw [List.mem_singleton] at ho
    subst ho
    exact ⟨_, rfl, by decide, by decide⟩)
  have h1 := h.1 bet_split_opp_eq (List.mem_singleton.mpr rfl)
    { stype := .yesA_noB, cost := 4/5, profit := 1/5, roi_percent := 25 } rfl
  exact ⟨h1.1, h1.2, h.2⟩

/-- C10: for a best strategy returned by `calculate_arbitrage` (which always
has `profit > 0`, hence `cost < 1`) together with the `cost > 0` guard of
`kelly_allocation`, the Kelly divisor `odds = 1/cost - 1` is strictly
positive, so the division in the Kelly-fraction formula never divides by
zero. -/
theorem kelly_divisor_positive (m1_yes m1_no : ℚ) (rest : List ℚ) (m2 : Market2Prices)
    (r : ArbitrageResult) (b : Strategy)
    (hr : calculate_arbitrage (m1_yes :: m1_no :: rest) m2 = some r)
    (hb : r.best_strategy = some b) (hc : 0 < b.cost) :
    0 < 1 / b.cost - 1 ∧ (1 : ℚ) / b.cost - 1 ≠ 0 := by
  obtain ⟨hp, hpc, -, -⟩ := best_strategy_spec _ _ _ _ _ _ hr hb
  have h1 : b.cost < 1 := by linarith
  have hpos : 0 < 1 / b.cost - 1 := by
    rw [sub_pos, lt_div_iff₀ hc, one_mul]
    exact h1
  exact ⟨hpos, ne_of_gt hpos⟩

unseal Rat.add Rat.mul Rat.sub Rat.inv in
/-- Witness for C10 at the cost-0.8 best strategy of
`calculate_arbitrage [0.4, 0.6] (0.9, 0.4)`. -/
theorem kelly_divisor_positive_witness :
    (0 : ℚ) < 1 / (4/5 : ℚ) - 1 ∧ (1 : ℚ) / (4/5 : ℚ) - 1 ≠ 0 :=
  kelly_divisor_positive (2/5) (3/5) [] { yes_price := 9/10, no_price := 2/5 }
    bet_split_opp_eq.arbitrage
    { stype := .yesA_noB, cost := 4/5, profit := 1/5, roi_percent := 25 }
    (by decide) (by decide) (by decide)

/-- Shared lemma for C9: the combined ask1 ROI is always defined when both
flat prices are positive and every ask1 price present in a supplied book is
positive, whichever books are present. -/
theorem combined_ask1_isSome (st : StrategyType) (ob1 ob2 : Option CombinedOrderbook)
    (p1 p2 : Market2Prices)
    (hy1 : 0 < p1.yes_price) (hn1 : 0 < p1.no_price)
    (hy2 : 0 < p2.yes_price) (hn2 : 0 < p2.no_price)
    (hob1 : ∀ ob ∈ ob1, (∀ q ∈ ob.yes_ask1_price, 0 < q) ∧ (∀ q ∈ ob.no_ask1_price, 0 < q))
    (hob2 : ∀ ob ∈ ob2, (∀ q ∈ ob.yes_ask1_price, 0 < q) ∧ (∀ q ∈ ob.no_ask1_price, 0 < q)) :
    (calculate_orderbook_roi_combined_ask1 st ob1 ob2 p1 p2).isSome = true := by
  have key : ∀ (o : Option ℚ) (d : ℚ), (∀ q ∈ o, 0 < q) → 0 < d → 0 < o.getD d := by
    intro o d ho hd
    cases o with
    | none => exact hd
    | some q => exact ho q rfl
  have hp1 : 0 < refined_price_ask1_p1 st ob1 p1 := by
    cases st <;> rcases ob1 with _ | cob1
    · exact hy1
    · exact key _ _ (hob1 cob1 rfl).1 hy1
    · exact hn1
    · exact key _ _ (hob1 cob1 rfl).2 hn1
  have hp2 : 0 < refined_price_ask1_p2 st ob2 p2 := by
    cases st <;> rcases ob2 with _ | cob2
    · exact hn2
    · exact key _ _ (hob2 cob2 rfl).2 hn2
    · exact hy2
    · exact key _ _ (hob2 cob2 rfl).1 hy2
  simp only [calculate_orderbook_roi_combined_ask1]
  rw [if_neg (not_le.mpr (add_pos hp1 hp2))]
  rfl

/-- C9: with positive flat prices, the combined ask1 refiner falls back per
leg — with both order books absent it returns exactly the best strategy's
flat-price ROI, and with any combination of books present (whose ask1 prices,
when present, are positive) it still returns a non-`None` refined ROI. -/
theorem combined_ask1_per_leg_fallback (m1_yes m1_no : ℚ) (rest : List ℚ)
    (m2 : Market2Prices) (r : ArbitrageResult) (b : Strategy)
    (ob1 ob2 : Option CombinedOrderbook)
    (hy1 : 0 < m1_yes) (hn1 : 0 < m1_no) (hy2 : 0 < m2.yes_price) (hn2 : 0 < m2.no_price)
    (hr : calculate_arbitrage (m1_yes :: m1_no :: rest) m2 = some r)
    (hb : r.best_strategy = some b)
    (hob1 : ∀ ob ∈ ob1, (∀ q ∈ ob.yes_ask1_price, 0 < q) ∧ (∀ q ∈ ob.no_ask1_price, 0 < q))
    (hob2 : ∀ ob ∈ ob2, (∀ q ∈ ob.yes_ask1_price, 0 < q) ∧ (∀ q ∈ ob.no_ask1_price, 0 < q)) :
    calculate_orderbook_roi_combined_ask1 b.stype none none
        { yes_price := m1_yes, no_price := m1_no } m2 = some b.roi_percent ∧
    (calculate_orderbook_roi_combined_ask1 b.stype ob1 ob2
        { yes_price := m1_yes, no_price := m1_no } m2).isSome = true := by
  obtain ⟨hp, hpc, hroi, hcase⟩ := best_strategy_spec _ _ _ _ _ _ hr hb
  constructor
  · rcases hcase with ⟨hst, hcost⟩ | ⟨hst, hcost⟩
    · have hcpos : 0 < m1_yes + m2.no_price := by linarith
      rw [hst]
      simp only [calculate_orderbook_roi_combined_ask1, refined_price_ask1_p1,
        refined_price_ask1_p2]
      rw [if_neg (not_le.mpr hcpos),
        hroi, if_pos (show 0 < b.cost from hcost ▸ hcpos), hpc, hcost]
    · have hcpos : 0 < m1_no + m2.yes_price := by linarith
      rw [hst]
      simp only [calculate_orderbook_roi_combined_ask1, refined_price_ask1_p1,
        refined_price_ask1_p2]
      rw [if_neg (not_le.mpr hcpos),
        hroi, if_pos (show 0 < b.cost from hcost ▸ hcpos), hpc, hcost]
  · exact combined_ask1_isSome b.stype ob1 ob2
      { yes_price := m1_yes, no_price := m1_no } m2 hy1 hn1 hy2 hn2 hob1 hob2

/-- Support for the C9 witness: the spec's concrete scenario,
`leg_a = (0.40, 0.55)`, `leg_b = (0.50, 0.45)` — best strategy is
`Yes on App1, No on App2` with cost 0.85 and ROI 300/17 ≈ 17.65%. -/
def scenario_result : ArbitrageResult :=
  { arbitrage_exists := true, market1_yes := 2/5, market1_no := 11/20,
    market2_yes := 1/2, market2_no := 9/20,
    best_strategy := some { stype := .yesA_noB, cost := 17/20, profit := 3/20,
                            roi_percent := 300/17 } }

/-- Platform-1 book for the C9 witness: only the YES ask1 level present. -/
def scenario_book : CombinedOrderbook :=
  { yes_ask1_price := some (2/5), no_ask1_price := none,
    yes_ask2_price := none, no_ask2_price := none }

unseal Rat.add Rat.mul Rat.sub Rat.inv in
/-- Witness for C9 on the spec scenario: both books absent gives exactly the
flat ROI 300/17, and a one-sided book still yields a defined ROI. -/
theorem combined_ask1_per_leg_fallback_witness :
    calculate_orderbook_roi_combined_ask1 StrategyType.yesA_noB none none
        { yes_price := 2/5, no_price := 11/20 } { yes_price := 1/2, no_price := 9/20 }
      = some ((300:ℚ)/17) ∧
    (calculate_orderbook_roi_combined_ask1 StrategyType.yesA_noB (some scenario_book) none
        { yes_price := 2/5, no_price := 11/20 }
        { yes_price := 1/2, no_price := 9/20 }).isSome = true := by
  have h := combined_ask1_per_leg_fallback (2/5) (11/20) []
    { yes_price := 1/2, no_price := 9/20 } scenario_result
    { stype := .yesA_noB, cost := 17/20, profit := 3/20, roi_percent := 300/17 }
    (some scenario_book) none
    (by decide) (by decide) (by decide) (by decide) (by decide) rfl
    (by
      intro ob hob
      rw [Option.mem_def, Option.some_inj] at hob
      subst hob
      constructor
      · intro q hq
        simp only [scenario_book, Option.mem_def, Option.some_inj] at hq
        subst hq
        decide
      · intro q hq
        simp only [scenario_book] at hq
        exact absurd hq (Option.not_mem_none q))
    (by intro ob hob; exact absurd hob (Option.not_mem_none ob))
  exact h

/-- Shared lemma for C6: for a total transitive relation `r`, the first
element of `insertionSort r l` is an `r`-least element of `l`, the second is
an `r`-least element of `l` with one occurrence of the first removed, and the
two positions are populated exactly when `l` has enough elements. -/
theorem insertionSort_top_two (r : OpinionLevel → OpinionLevel → Prop) [DecidableRel r]
    [IsTotal OpinionLevel r] [IsTrans OpinionLevel r] (l : List OpinionLevel) :
    (∀ x, (List.insertionSort r l).get? 0 = some x → x ∈ l ∧ ∀ a ∈ l, r x a) ∧
    (∀ x y, (List.insertionSort r l).get? 0 = some x →
        (List.insertionSort r l).get? 1 = some y →
        y ∈ l.erase x ∧ ∀ a ∈ l.erase x, r y a) ∧
    (l ≠ [] → ((List.insertionSort r l).get? 0).isSome = true) ∧
    (1 < l.length → ((List.insertionSort r l).get? 1).isSome = true) := by
  have hperm := List.perm_insertionSort r l
  have hsort := List.sorted_insertionSort r l
  have hrefl : ∀ a : OpinionLevel, r a a := fun a => (IsTotal.total a a).elim id id
  rcases hs : List.insertionSort r l with _ | ⟨x0, t⟩
  · rw [hs] at hperm
    have hl : l = [] := hperm.symm.eq_nil
    refine ⟨?_, ?_, ?_, ?_⟩
    · intro z hz
      exact absurd hz (by simp)
    · intro z y hz _
      exact absurd hz (by simp)
    · intro hne
      exact absurd hl hne
    · intro hlen
      rw [hl] at hlen
      exact absurd hlen (by simp)
  · rw [hs] at hperm hsort
    refine ⟨?_, ?_, ?_, ?_⟩
    · intro z hz
      simp only [List.get?] at hz
      injection hz with hz
      subst hz
      refine ⟨hperm.mem_iff.mp (List.mem_cons_self x0 t), ?_⟩
      intro a ha
      rcases List.mem_cons.mp (hperm.mem_iff.mpr ha) with h | h
      · rw [h]
        exact hrefl x0
      · exact List.rel_of_sorted_cons hsort a h
    · intro z y hz hy
      simp only [List.get?] at hz
      injection hz with hz
      subst hz
      rcases ht : t with _ | ⟨y0, t0⟩
      · rw [ht] at hy
        exact absurd hy (by simp)
      · rw [ht] at hy hperm hsort
        simp only [List.get?] at hy
        injection hy with hy
        subst hy
        have hperm_e : List.Perm (l.erase x0) (y0 :: t0) := by
          have h1 := hperm.erase x0
          rw [List.erase_cons_head] at h1
          exact h1.symm
        have hsort_t : List.Sorted r (y0 :: t0) := (List.sorted_cons.mp hsort).2
        refine ⟨hperm_e.mem_iff.mpr (List.mem_cons_self y0 t0), ?_⟩
        intro a ha
        rcases List.mem_cons.mp (hperm_e.mem_iff.mp ha) with h | h
        · rw [h]
          exact hrefl y0
        · exact List.rel_of_sorted_cons hsort_t a h
    · intro _
      rfl
    · intro hlen
      rcases ht : t with _ | ⟨y0, t0⟩
      · rw [ht] at hperm
        have hlength := hperm.length_eq
        simp only [List.length_cons, List.length_nil] at hlength
        omega
      · rfl

/-- C6 amended (Opinion path): `fetch_token_orderbook` sorts bids descending
and asks ascending before extracting, so for every ordering of the input
lists the extracted `ask1_price` is the minimum ask price, `ask2_price` the
second-lowest ask price (the minimum after removing one minimal ask),
`bid1_price` the maximum bid price, and `bid2_price` the second-highest bid
price, each level present exactly when the input list is long enough.  (The
Polymarket extractor does not sort — see the counterexample.) -/
theorem fetch_token_orderbook_sorts (bids asks : List OpinionLevel) (d : OrderbookDepth)
    (hd : fetch_token_orderbook_depth bids asks = some d) :
    (∀ p, d.ask1_price = some p → (∃ a ∈ asks, a.price = p) ∧ ∀ a ∈ asks, p ≤ a.price) ∧
    (∀ p1 p2, d.ask1_price = some p1 → d.ask2_price = some p2 →
        ∃ a1 ∈ asks, a1.price = p1 ∧
          ∃ a2 ∈ asks.erase a1, a2.price = p2 ∧ ∀ a ∈ asks.erase a1, p2 ≤ a.price) ∧
    (∀ p, d.bid1_price = some p → (∃ b ∈ bids, b.price = p) ∧ ∀ b ∈ bids, b.price ≤ p) ∧
    (∀ p1 p2, d.bid1_price = some p1 → d.bid2_price = some p2 →
        ∃ b1 ∈ bids, b1.price = p1 ∧
          ∃ b2 ∈ bids.erase b1, b2.price = p2 ∧ ∀ b ∈ bids.erase b1, b.price ≤ p2) ∧
    d.ask1_price.isSome = true ∧
    (1 < asks.length → d.ask2_price.isSome = true) ∧
    (bids ≠ [] → d.bid1_price.isSome = true) ∧
    (1 < bids.length → d.bid2_price.isSome = true) := by
  haveI ht1 : IsTotal OpinionLevel (fun a b => b.price ≤ a.price) :=
    ⟨fun a b => le_total b.price a.price⟩
  haveI ht2 : IsTrans OpinionLevel (fun a b => b.price ≤ a.price) :=
    ⟨fun _ _ _ h1 h2 => le_trans h2 h1⟩
  haveI ht3 : IsTotal OpinionLevel (fun a b => a.price ≤ b.price) :=
    ⟨fun a b => le_total a.price b.price⟩
  haveI ht4 : IsTrans OpinionLevel (fun a b => a.price ≤ b.price) :=
    ⟨fun _ _ _ h1 h2 => le_trans h1 h2⟩
  have hask := insertionSort_top_two (fun a b : OpinionLevel => a.price ≤ b.price) asks
  have hbid := insertionSort_top_two (fun a b : OpinionLevel => b.price ≤ a.price) bids
  simp only [fetch_token_orderbook_depth, extract_opinion_orderbook_depth] at hd
  split at hd
  · exact absurd hd (by simp)
  · rename_i hne
    have hasks : asks ≠ [] := by
      intro h
      rw [h] at hne
      exact hne rfl
    injection hd with hd
    subst hd
    refine ⟨?_, ?_, ?_, ?_, ?_, ?_, ?_, ?_⟩
    · intro p hp
      obtain ⟨x, hx0, hxp⟩ := Option.map_eq_some'.mp hp
      obtain ⟨hxm, hxmin⟩ := hask.1 x hx0
      exact ⟨⟨x, hxm, hxp⟩, fun a ha => hxp ▸ hxmin a ha⟩
    · intro p1 p2 hp1 hp2
      obtain ⟨x, hx0, hxp⟩ := Option.map_eq_some'.mp hp1
      obtain ⟨y, hy1, hyp⟩ := Option.map_eq_some'.mp hp2
      obtain ⟨hym, hymin⟩ := hask.2.1 x y hx0 hy1
      exact ⟨x, (hask.1 x hx0).1, hxp, y, hym, hyp, fun a ha => hyp ▸ hymin a ha⟩
    · intro p hp
      obtain ⟨x, hx0, hxp⟩ := Option.map_eq_some'.mp hp
      obtain ⟨hxm, hxmax⟩ := hbid.1 x hx0
      exact ⟨⟨x, hxm, hxp⟩, fun b hb => hxp ▸ hxmax b hb⟩
    · intro p1 p2 hp1 hp2
      obtain ⟨x, hx0, hxp⟩ := Option.map_eq_some'.mp hp1
      obtain ⟨y, hy1, hyp⟩ := Option.map_eq_some'.mp hp2
      obtain ⟨hym, hymax⟩ := hbid.2.1 x y hx0 hy1
      exact ⟨x, (hbid.1 x hx0).1, hxp, y, hym, hyp, fun b hb => hyp ▸ hymax b hb⟩
    · rw [Option.isSome_map']
      exact hask.2.2.1 hasks
    · intro hlen
      rw [Option.isSome_map']
      exact hask.2.2.2 hlen
    · intro hb
      rw [Option.isSome_map']
      exact hbid.2.2.1 hb
    · intro hlen
      rw [Option.isSome_map']
      exact hbid.2.2.2 hlen

/-- Support for the C6 counterexample: a Polymarket book whose ask list is
given in ascending order (best ask first). -/
def unsorted_book : OrderBook :=
  { bids := [],
    asks := [{ price := some (3/10), size := some 1 },
             { price := some (1/2), size := some 1 }] }

unseal Rat.add Rat.mul Rat.sub Rat.inv in
/-- C6 counterexample (Polymarket path): `extract_orderbook_depth` does not
sort — on an ask list whose minimum (0.3) comes first it reports the LAST
element 0.5 as `ask1_price`, so the extracted `ask1_price` is not the minimum
ask for this ordering of the input. -/
theorem extract_orderbook_depth_no_sort_counterexample :
    extract_orderbook_depth (some unsorted_book) (1/2) =
      some { bid1_price := none, bid1_size_usd := none,
             bid2_price := none, bid2_size_usd := none,
             ask1_price := some (1/2), ask1_size_usd := some (1/2),
             ask2_price := some (3/10), ask2_size_usd := some (3/10) } ∧
    (∃ l ∈ unsorted_book.asks, l.price = some (3/10)) ∧ (3/10 : ℚ) < 1/2 := by
  refine ⟨by decide, ⟨{ price := some (3/10), size := some 1 }, by decide, rfl⟩, by decide⟩

/-- Unsorted Opinion bid list for the C6 witness. -/
def opinion_bids : List OpinionLevel := [{ price := 1/4, size := 1 }, { price := 3/5, size := 1 }]

/-- Unsorted Opinion ask list for the C6 witness. -/
def opinion_asks : List OpinionLevel := [{ price := 7/10, size := 1 }, { price := 3/10, size := 2 }]

unseal Rat.add Rat.mul Rat.sub Rat.inv in
/-- Witness for the amended C6 on concrete unsorted lists: the extracted ask1
(0.3) is a member and a lower bound of the asks, ask2 (0.7) the minimum of
the remaining asks, bid1 (0.6) a member and an upper bound of the bids, and
bid2 (0.25) the maximum of the remaining bids. -/
theorem fetch_token_orderbook_sorts_witness :
    ((∃ a ∈ opinion_asks, a.price = 3/10) ∧ ∀ a ∈ opinion_asks, (3/10 : ℚ) ≤ a.price) ∧
    (∃ a1 ∈ opinion_asks, a1.price = 3/10 ∧
        ∃ a2 ∈ opinion_asks.erase a1, a2.price = 7/10 ∧
          ∀ a ∈ opinion_asks.erase a1, (7/10 : ℚ) ≤ a.price) ∧
    ((∃ b ∈ opinion_bids, b.price = 3/5) ∧ ∀ b ∈ opinion_bids, b.price ≤ (3/5 : ℚ)) ∧
    (∃ b1 ∈ opinion_bids, b1.price = 3/5 ∧
        ∃ b2 ∈ opinion_bids.erase b1, b2.price = 1/4 ∧
          ∀ b ∈ opinion_bids.erase b1, b.price ≤ (1/4 : ℚ)) := by
  have h := fetch_token_orderbook_sorts opinion_bids opinion_asks
    { bid1_price := some (3/5), bid1_size_usd := some (3/5),
      bid2_price := some (1/4), bid2_size_usd := some (1/4),
      ask1_price := some (3/10), ask1_size_usd := some (3/5),
      ask2_price := some (7/10), ask2_size_usd := some (7/10) }
    (by decide)
  exact ⟨h.1 (3/10) rfl, h.2.1 (3/10) (7/10) rfl rfl, h.2.2.1 (3/5) rfl,
    h.2.2.2.1 (3/5) (1/4) rfl rfl⟩

end Arb
